import Mathlib

/-!
# Verification of the `voo` conversational agent orchestrator

Shallow embedding of the repository's core (the `Agent` data model in
`crates/domain/src/models/agent.rs`, the Gemini backend adapter in
`crates/models/src/models/gemini.rs`, the two tools under
`crates/models/src/tools/`, and the orchestration loop in `src/main.rs`),
together with theorems settling the specification claims.

External effects are modelled as explicit inputs: the backend HTTP exchange
becomes a `BackendOutcome` value consumed per query, the filesystem becomes a
lookup function, and terminal output becomes an instrumented `printed` list.
-/

namespace Voo

/-- Model of `serde_json::Value` (`FunctionCall.args` and tool inputs are
JSON values; numbers are modelled as integers, which is enough for every
claim since none inspects numeric payloads). -/
inductive Json where
  | null : Json
  | bool (b : Bool) : Json
  | num (n : Int) : Json
  | str (s : String) : Json
  | arr (elems : List Json) : Json
  | obj (fields : List (String × Json)) : Json

/-- `FunctionCall` from `agent.rs`: `{ name: String, args: Value }`. -/
structure FunctionCall where
  name : String
  args : Json

/-- `Part` from `agent.rs`: `{ text: Option<String>, function_call: Option<FunctionCall> }`. -/
structure Part where
  text : Option String
  functionCall : Option FunctionCall

/-- `Part::new(text)` from `agent.rs`. -/
def Part.ofText (t : String) : Part :=
  ⟨some t, none⟩

/-- `Content` from `agent.rs`: `{ parts: Vec<Part>, role: String }`. -/
structure Content where
  parts : List Part
  role : String

/-- `Content::new(parts, role)` from `agent.rs`. -/
def Content.new (parts : List Part) (role : String) : Content :=
  ⟨parts, role⟩

/-- `AgentError` from `agent.rs`. -/
inductive AgentError where
  | userInputError (msg : Option String) : AgentError
  | agentError (msg : Option String) : AgentError
  | expiredApiKey : AgentError

/-- The `Display` implementation of `AgentError` in `agent.rs`
(`e.to_string()`). -/
def AgentError.toMessage : AgentError → String
  | .userInputError (some m) => "UserInputError: " ++ m
  | .userInputError none => "UserInputError: "
  | .agentError (some m) => "AgentError: " ++ m
  | .agentError none => "AgentError: "
  | .expiredApiKey => "ExpiredApiKey"

/-- `ToolError` from `tools.rs`. -/
inductive ToolError where
  | fileNotFound (s : String) : ToolError
  | listFile (s : String) : ToolError
  | toolError (s : String) : ToolError

/-- The `Display` implementation of `ToolError` in `tools.rs`. -/
def ToolError.toMessage : ToolError → String
  | .fileNotFound p => "File not found: " ++ p
  | .listFile p => "List file error: " ++ p
  | .toolError m => "Tool error: " ++ m

/-- `ToolDefinition` from `tools.rs` (`parameters` kept as a JSON value). -/
structure ToolDefinition where
  name : String
  description : String
  parameters : Json

/-- The `Tool` trait object from `tools.rs` as a record of its capabilities:
`name`, `description`, `tool_definition`, and `exec(args)`.  `exec` is the
pure projection of the tool's behaviour (the filesystem, when a tool touches
it, is baked in as a lookup function when the record is built). -/
structure Tool where
  name : String
  description : String
  toolDefinition : ToolDefinition
  exec : Json → Except ToolError String

/-- The agent's tool registry `HashMap<String, Arc<dyn Tool>>` from
`agent.rs`, modelled as an association list with `HashMap`-insert semantics
(a `HashMap` holds at most one entry per key). -/
def Registry : Type := List (String × Tool)

/-- `HashMap::insert` semantics: replace the entry for the key if present,
otherwise add a new entry. -/
def insertTool : Registry → String → Tool → Registry
  | [], k, v => [(k, v)]
  | (k', v') :: rest, k, v =>
    if k' = k then (k, v) :: rest else (k', v') :: insertTool rest k v

/-- `HashMap::get` (used at dispatch time in `perform_function_call`). -/
def lookupTool : Registry → String → Option Tool
  | [], _ => none
  | (k', v') :: rest, k => if k' = k then some v' else lookupTool rest k

/-- `Agent::add_tool` from `agent.rs` composed with `GeminiModel::add_tool`
from `gemini.rs`: inserts into the registry map by `tool.name()` and pushes
the tool definition onto the Gemini `function_declarations` vector. -/
def add_tool (reg : Registry) (decls : List ToolDefinition) (tool : Tool) :
    Registry × List ToolDefinition :=
  (insertTool reg tool.name tool, decls ++ [tool.toolDefinition])

/-- `ConversationHistory` from `gemini.rs`: `{ contents: Vec<Content> }`. -/
structure ConversationHistory where
  contents : List Content

/-- `Metadata` from `gemini.rs`. -/
structure Metadata where
  service : String

/-- `Detail` from `gemini.rs`. -/
structure Detail where
  typeField : String
  reason : Option String
  domain : Option String
  metadata : Option Metadata
  locale : Option String
  message : Option String

/-- `GeminiError` from `gemini.rs`: `{ code, message, status, details }`. -/
structure GeminiError where
  code : Int
  message : String
  status : String
  details : List Detail

/-- `Candidate` from `gemini.rs` (only `content` is read by the code). -/
structure Candidate where
  content : Content

/-- `GeminiResponse` from `gemini.rs`: `{ candidates, usage_metadata,
model_version, error }` (the two metadata fields are never read by the
orchestrator and are omitted). -/
structure GeminiResponse where
  candidates : Option (List Candidate)
  error : Option GeminiError

/-- One HTTP exchange with the backend, seen from `GeminiModel::ask`: either
the transport layer failed (`send()`, `text()` or JSON parsing — all three
are mapped by the code to `AgentError::AgentError(Some(e.to_string()))`), or
a `GeminiResponse` was decoded. -/
inductive BackendOutcome where
  | transportError (msg : String) : BackendOutcome
  | response (r : GeminiResponse) : BackendOutcome

/-- Character-list version of Rust `str::starts_with` for the substring
scan below. -/
def isPrefixChars : List Char → List Char → Bool
  | [], _ => true
  | _ :: _, [] => false
  | p :: ps, c :: cs => p = c && isPrefixChars ps cs

/-- Character-list substring occurrence. -/
def isInfixChars (pat : List Char) : List Char → Bool
  | [] => pat.isEmpty
  | c :: rest => isPrefixChars pat (c :: rest) || isInfixChars pat rest

/-- Rust `str::contains(pat)`: `pat` occurs as a contiguous substring of
`hay`. -/
def containsSubstr (hay pat : String) : Bool :=
  isInfixChars pat.toList hay.toList

/-- Rust `str::starts_with(pre)` (used for the `exit` command check). -/
def startsWithStr (s pre : String) : Bool :=
  isPrefixChars pre.toList s.toList

/-- The `Content::new(vec![Part::new(prompt)], "user")` turn pushed by
`GeminiModel::ask` before the request is issued. -/
def user_content (prompt : String) : Content :=
  ⟨[Part.ofText prompt], "user"⟩

/-- Push one turn onto the conversation history (`contents.push(content)`). -/
def push_content (h : ConversationHistory) (c : Content) : ConversationHistory :=
  ⟨h.contents ++ [c]⟩

/-- `GeminiModel::add_system_prompt(prompt, role)` from `gemini.rs`: appends
`Content::new(vec![Part::new(prompt)], role.to_string())` to the
conversation. `AgentRole` is represented by its rendered string. -/
def add_system_prompt (h : ConversationHistory) (prompt role : String) :
    ConversationHistory :=
  push_content h ⟨[Part.ofText prompt], role⟩

/-- Modelled from the spec: the one-argument `AgentClient::add_system_prompt`
used by `main.rs` and declared in `agent.rs` has no implementation under
`src/` (the `GeminiModel` snapshot implements a two-argument variant whose
`AgentRole` type is itself absent from `src/`).  Per the spec, orchestrator
feedback is appended back into history with role `User`. -/
def add_system_prompt_user (h : ConversationHistory) (prompt : String) :
    ConversationHistory :=
  add_system_prompt h prompt "user"

/-- All parts of a response, in order: `candidates.unwrap_or_default()`
mapped to contents, then `map(parts).flatten()` as in `GeminiModel::ask`. -/
def allParts (r : GeminiResponse) : List Part :=
  (((r.candidates.getD []).map Candidate.content).map Content.parts).flatten

/-- `GeminiModel::ask` from `gemini.rs` as a pure transition: the HTTP
exchange is the `BackendOutcome` input.  Faithful steps, in code order:
push the `"user"` turn; surface transport failures as
`AgentError::AgentError`; classify an error envelope (`"API key expired."`
substring ⇒ `ExpiredApiKey`, otherwise `AgentError(message)`); collect the
candidates' contents; error with `"No response from Gemini"` when the texts
vector is empty; otherwise append every non-empty text back into history
with role `Model` and return the contents. -/
def ask (h : ConversationHistory) (prompt : String) (out : BackendOutcome) :
    ConversationHistory × Except AgentError (List Content) :=
  let h1 := push_content h (user_content prompt)
  match out with
  | .transportError m => (h1, .error (.agentError (some m)))
  | .response r =>
    match r.error with
    | some env =>
      if containsSubstr env.message "API key expired." then
        (h1, .error .expiredApiKey)
      else
        (h1, .error (.agentError (some env.message)))
    | none =>
      let contents := (r.candidates.getD []).map Candidate.content
      let parts := (contents.map Content.parts).flatten
      let texts := parts.map (fun p => p.text.getD "")
      if texts.isEmpty then
        (h1, .error (.agentError (some "No response from Gemini")))
      else
        let h2 := texts.foldl
          (fun s t => if t.isEmpty then s else add_system_prompt s t "model") h1
        (h2, .ok contents)

/-- First field of a JSON object with the given key (`serde_json` maps hold
at most one entry per key). -/
def findField (fields : List (String × Json)) (k : String) : Option Json :=
  (fields.find? (fun p => p.1 == k)).map Prod.snd

/-- Model of `serde_json::from_value` for a struct with a single
`path: String` field (`Input` in `read_file.rs`, `ListFileInputInner` in
`list_files.rs`): the value must be an object whose `path` field is a
string; unknown fields are ignored, as serde does by default.  The error
strings stand in for serde's diagnostic text. -/
def parse_path_field (v : Json) : Except String String :=
  match v with
  | .obj fields =>
    match findField fields "path" with
    | some (.str s) => .ok s
    | some _ => .error "invalid type for field path, expected a string"
    | none => .error "missing field path"
  | _ => .error "invalid type: expected an object"

/-- `ReadFileTool::exec` from `read_file.rs`, with the filesystem as a
lookup function (`none` = `read_to_string` fails) and a second component
recording which paths a filesystem read was attempted on. -/
def read_file_exec (fs : String → Option String) (args : Json) :
    Except ToolError String × List String :=
  match parse_path_field args with
  | .error e => (.error (.toolError e), [])
  | .ok path =>
    match fs path with
    | none => (.error (.fileNotFound "No such file or directory (os error 2)"), [path])
    | some content => (.ok content, [path])

/-- One `std::fs::read_dir` entry as `list_files.rs` consumes it: its
rendered path and whether it is a directory. -/
structure DirEntry where
  path : String
  isDir : Bool

/-- `ListFileTool::exec` from `list_files.rs`, with the directory listing as
a lookup function (`none` = `read_dir` fails) and a second component
recording which directories a listing was attempted on.  Directory entries
get a trailing `/`; entries are joined with `", "`. -/
def list_files_exec (dfs : String → Option (List DirEntry)) (args : Json) :
    Except ToolError String × List String :=
  match parse_path_field args with
  | .error e => (.error (.toolError ("Invalid input: " ++ e)), [])
  | .ok path =>
    match dfs path with
    | none => (.error (.listFile (path ++ ": No such file or directory (os error 2)")), [path])
    | some entries =>
      let files := entries.map (fun e => if e.isDir then e.path ++ "/" else e.path)
      (.ok (String.intercalate ", " files), [path])

/-- The `parameters` JSON literal of `ReadFileTool::new`. -/
def read_file_params : Json :=
  Json.obj
    [("type", Json.str "object"),
     ("properties", Json.obj
       [("path", Json.obj
         [("type", Json.str "string"),
          ("description", Json.str "The path to read the file from")])]),
     ("required", Json.arr [Json.str "path"])]

/-- The `parameters` JSON literal of `ListFileTool::new`. -/
def list_files_params : Json :=
  Json.obj
    [("type", Json.str "object"),
     ("properties", Json.obj
       [("path", Json.obj
         [("type", Json.str "string"),
          ("description", Json.str "The path to list files from")])]),
     ("required", Json.arr [Json.str "path"])]

/-- `ReadFileTool::new(name, description)` packaged as a `Tool` record over
a fixed filesystem. -/
def ReadFileTool.new (fs : String → Option String) (name description : String) : Tool :=
  { name := name, description := description,
    toolDefinition := ⟨name, description, read_file_params⟩,
    exec := fun args => (read_file_exec fs args).1 }

/-- `ListFileTool::new(name, description)` packaged as a `Tool` record over
a fixed directory structure. -/
def ListFileTool.new (dfs : String → Option (List DirEntry)) (name description : String) : Tool :=
  { name := name, description := description,
    toolDefinition := ⟨name, description, list_files_params⟩,
    exec := fun args => (list_files_exec dfs args).1 }

/-- The `read_file` description string from `main.rs`. -/
def read_file_description : String :=
  "Read the contents of a given relative file path. Use this when you want to see what's inside a file. Do not use this with directory names."

/-- The `list_files` description string from `main.rs`. -/
def list_files_description : String :=
  "List the files of a given relative file path. Use this when you want to see what's inside a directory."

/-- The registry and declaration list built by `main`: `read_file` then
`list_files` added to an empty agent. -/
def mainRegistry (fs : String → Option String) (dfs : String → Option (List DirEntry)) :
    Registry × List ToolDefinition :=
  let s1 := add_tool [] [] (ReadFileTool.new fs "read_file" read_file_description)
  add_tool s1.1 s1.2 (ListFileTool.new dfs "list_files" list_files_description)

/-- `main`'s registry over an empty filesystem (every read and listing
fails), used for concrete evaluations. -/
def registry0 : Registry :=
  (mainRegistry (fun _ => none) (fun _ => none)).1

/-- Model of `serde_json::to_string` on a `String` value (the encoding
applied to each `tool_output` before it is pushed into `tool_outputs`). -/
def escapeChar (c : Char) : String :=
  if c = '"' then "\\\""
  else if c = '\\' then "\\\\"
  else if c = '\n' then "\\n"
  else if c = '\t' then "\\t"
  else if c = '\r' then "\\r"
  else String.singleton c

/-- JSON string encoding: surrounding quotes plus escaped characters. -/
def json_encode_string (s : String) : String :=
  "\"" ++ s.toList.foldl (fun acc c => acc ++ escapeChar c) "" ++ "\""

/-- Outcome of one `perform_function_call` invocation: `panicked` models the
`Option::unwrap()` panic when `agent_tools.get(&tool_name)` is `None`;
`failed` is the `Err(anyhow!("Error executing tool: {}", e))` early return;
`ok` carries the JSON-encoded tool outputs in call order. -/
inductive CallsResult where
  | panicked : CallsResult
  | failed (msg : String) : CallsResult
  | ok (outputs : List String) : CallsResult

/-- `perform_function_call` from `main.rs`: iterate the optional function
calls in order; for each present call, look its name up in the registry
(`.unwrap()` — absence panics), run `exec(args)`, return early on the first
exec error, and otherwise accumulate the JSON-encoded outputs. -/
def perform_function_call (reg : Registry) : List (Option FunctionCall) → CallsResult
  | [] => .ok []
  | none :: rest => perform_function_call reg rest
  | some fc :: rest =>
    match lookupTool reg fc.name with
    | none => .panicked
    | some tool =>
      match tool.exec fc.args with
      | .error e => .failed ("Error executing tool: " ++ e.toMessage)
      | .ok out =>
        match perform_function_call reg rest with
        | .ok outs => .ok (json_encode_string out :: outs)
        | r => r

/-- `print_response` from `main.rs`: for each part, a `None` text only
produces a diagnostic log (observer-only, not modelled); a `Some` text is
printed to the user (collected in the second component, in order) and fed
back through the one-argument `add_system_prompt`. -/
def print_response (h : ConversationHistory) (parts : List Part) :
    ConversationHistory × List String :=
  parts.foldl
    (fun acc p =>
      match p.text with
      | none => acc
      | some t => (add_system_prompt_user acc.1 t, acc.2 ++ [t]))
    (h, [])

/-- Exit of the inner dispatch `loop` of `main.rs` (lines 96–112). -/
inductive DispatchExit where
  | panicked (h : ConversationHistory) : DispatchExit
  | outputs (outs : List String) (h : ConversationHistory) : DispatchExit

/-- The inner dispatch `loop` of `main.rs` (lines 96–112), fuel-indexed:
each pass re-runs `perform_function_call` on the same batch; `Ok` breaks out
with the outputs, a panic aborts the process, and an `Err` logs, appends
`"Error performing function call: …"` as feedback, sets `is_retry` and
`continue`s — which targets this inner loop, so the next pass runs the same
batch again.  `none` means the loop had not exited within `fuel` passes. -/
def dispatch_retry_loop (reg : Registry) (calls : List (Option FunctionCall)) :
    ConversationHistory → Nat → Option DispatchExit
  | _, 0 => none
  | h, fuel + 1 =>
    match perform_function_call reg calls with
    | .ok outs => some (.outputs outs h)
    | .panicked => some (.panicked h)
    | .failed msg =>
      dispatch_retry_loop reg calls
        (add_system_prompt_user h ("Error performing function call: " ++ msg)) fuel

/-- How one pass of the orchestrator's outer loop ends.  `next` loops;
`exitCmd` is the `exit` command break; `expired` is the
`Err(AgentError::ExpiredApiKey)` break; `panicked` is the registry-lookup
panic inside `perform_function_call`; `diverged` marks the inner dispatch
loop spinning forever (its condition is deterministic, see
`dispatch_retry_loop`); `inputsEnded`/`backendEnded`/`fuelOut` are model
artifacts for exhausted oracles. -/
inductive IterExit where
  | exitCmd : IterExit
  | expired : IterExit
  | next : IterExit
  | panicked : IterExit
  | diverged : IterExit
  | inputsEnded : IterExit
  | backendEnded : IterExit
  | fuelOut : IterExit
deriving DecidableEq

/-- Mutable context threaded through one pass of the outer loop body:
conversation, remaining backend oracle, texts printed to the user, and the
names of function calls handed to `perform_function_call`. -/
structure Ctx where
  conv : ConversationHistory
  backend : List BackendOutcome
  printed : List String
  dispatched : List String

/-- The `for output in tool_use` loop of `main.rs` (lines 114–133): skip
empty outputs; re-query the model with `"Tool use output:\n\n{output}\n"`;
on error, log and append the error text as feedback and continue with the
next output (note: `ExpiredApiKey` is not special-cased here); on success,
`print_response` every returned content. -/
def process_tool_outputs (ctx : Ctx) : List String → Except (IterExit × Ctx) Ctx
  | [] => .ok ctx
  | out :: rest =>
    if out.isEmpty then process_tool_outputs ctx rest
    else
      match ctx.backend with
      | [] => .error (.backendEnded, ctx)
      | b :: brest =>
        let res := ask ctx.conv ("Tool use output:\n\n" ++ out ++ "\n") b
        match res.2 with
        | .error e =>
          process_tool_outputs
            { ctx with conv := add_system_prompt_user res.1 e.toMessage,
                       backend := brest } rest
        | .ok contents =>
          let ctx1 := contents.foldl
            (fun c content =>
              let pr := print_response c.conv content.parts
              { c with conv := pr.1, printed := c.printed ++ pr.2 })
            { ctx with conv := res.1, backend := brest }
          process_tool_outputs ctx1 rest

/-- The `for response in responses` loop of `main.rs` (lines 87–137): scan
the parts for function calls; if any is present, hand the batch to the
dispatch machinery (`panicked` when a name is unregistered, `diverged` when
`perform_function_call` fails — it is deterministic in `reg` and the batch,
so the inner `loop` re-fails forever; the recorded state is the one after
its first failed pass), then feed each output back via
`process_tool_outputs`; otherwise `print_response` the parts. -/
def process_responses (reg : Registry) (ctx : Ctx) : List Content → Except (IterExit × Ctx) Ctx
  | [] => .ok ctx
  | response :: rest =>
    let fcalls := response.parts.map Part.functionCall
    if fcalls.any Option.isSome then
      let ctxd := { ctx with
        dispatched := ctx.dispatched ++ (fcalls.filterMap id).map FunctionCall.name }
      match perform_function_call reg fcalls with
      | .panicked => .error (.panicked, ctxd)
      | .failed msg =>
        .error (.diverged,
          { ctxd with conv := add_system_prompt_user ctxd.conv ("Error performing function call: " ++ msg) })
      | .ok outs =>
        match process_tool_outputs ctxd outs with
        | .error e => .error e
        | .ok ctx1 => process_responses reg ctx1 rest
    else
      let pr := print_response ctx.conv response.parts
      process_responses reg { ctx with conv := pr.1, printed := ctx.printed ++ pr.2 } rest

/-- The orchestrator's loop variables from `main.rs`: `is_retry`,
`retry_attempt`, and the conversation held by the model client. -/
structure MState where
  isRetry : Bool
  retryAttempt : Nat
  conv : ConversationHistory

/-- `max_retry` from `main.rs`. -/
def max_retry : Nat := 3

/-- Result of one pass of the outer loop (or of a whole run). -/
structure IterOut where
  exit : IterExit
  st : MState
  inputs : List String
  backend : List BackendOutcome
  printed : List String
  dispatched : List String

/-- Body of one outer-loop pass after the input has been chosen: the `exit`
command breaks; otherwise `ask` the model (consuming one backend outcome)
and match the result — `Ok` clears `is_retry` and processes the responses,
`Err(ExpiredApiKey)` breaks, any other `Err` appends the rendered error as
feedback and sets `is_retry`. -/
def main_iteration_body (reg : Registry) (st : MState) (input : String)
    (inputs : List String) (backend : List BackendOutcome) : IterOut :=
  if startsWithStr input "exit" then ⟨.exitCmd, st, inputs, backend, [], []⟩
  else
    match backend with
    | [] => ⟨.backendEnded, st, inputs, [], [], []⟩
    | b :: brest =>
      let res := ask st.conv input b
      match res.2 with
      | .ok contents =>
        match process_responses reg ⟨res.1, brest, [], []⟩ contents with
        | .ok ctx =>
          ⟨.next, ⟨false, st.retryAttempt, ctx.conv⟩, inputs, ctx.backend,
            ctx.printed, ctx.dispatched⟩
        | .error (ex, ctx) =>
          ⟨ex, ⟨false, st.retryAttempt, ctx.conv⟩, inputs, ctx.backend,
            ctx.printed, ctx.dispatched⟩
      | .error .expiredApiKey => ⟨.expired, { st with conv := res.1 }, inputs, brest, [], []⟩
      | .error e =>
        ⟨.next, ⟨true, st.retryAttempt, add_system_prompt_user res.1 e.toMessage⟩,
          inputs, brest, [], []⟩

/-- One full pass of the outer `loop` of `main.rs`: reset the retry budget
when `retry_attempt >= max_retry`; then either read a fresh line from the
user (when not retrying) or synthesize the `"Retry."` input and bump
`retry_attempt`; then run the body. -/
def main_iteration (reg : Registry) (st : MState) (inputs : List String)
    (backend : List BackendOutcome) : IterOut :=
  let norm := if st.retryAttempt ≥ max_retry then (false, 0) else (st.isRetry, st.retryAttempt)
  if norm.1 then
    main_iteration_body reg ⟨true, norm.2 + 1, st.conv⟩ "Retry." inputs backend
  else
    match inputs with
    | [] => ⟨.inputsEnded, ⟨false, norm.2, st.conv⟩, [], backend, [], []⟩
    | input :: rest => main_iteration_body reg ⟨false, norm.2, st.conv⟩ input rest backend

/-- The outer `loop` of `main.rs`, fuel-indexed: iterate `main_iteration`
while it yields `next`, accumulating printed texts and dispatched call
names; any other exit stops the run. -/
def main_loop (reg : Registry) : Nat → MState → List String → List BackendOutcome → IterOut
  | 0, st, inputs, backend => ⟨.fuelOut, st, inputs, backend, [], []⟩
  | fuel + 1, st, inputs, backend =>
    let it := main_iteration reg st inputs backend
    match it.exit with
    | .next =>
      let r := main_loop reg fuel it.st it.inputs it.backend
      { r with printed := it.printed ++ r.printed,
               dispatched := it.dispatched ++ r.dispatched }
    | _ => it

/-- The role-`Model` feedback contents that `ask` appends for the non-empty
texts of a successful response. -/
def model_feedback (r : GeminiResponse) : List Content :=
  (((allParts r).map (fun p => p.text.getD "")).filter (fun t => !t.isEmpty)).map
    (fun t => (⟨[Part.ofText t], "model"⟩ : Content))

/-- The role-`User` feedback contents `print_response` appends for the
`Some`-text parts it surfaces. -/
def user_feedback (parts : List Part) : List Content :=
  (parts.filterMap Part.text).map (fun t => (⟨[Part.ofText t], "user"⟩ : Content))

/-- One operation mutating the conversation held by the model client: a
query (`GeminiModel::ask`) or a feedback append (`add_system_prompt`, either
role). -/
inductive ConvOp where
  | askOp (prompt : String) (out : BackendOutcome) : ConvOp
  | feedback (prompt role : String) : ConvOp

/-- Apply one conversation operation. -/
def applyConvOp (h : ConversationHistory) : ConvOp → ConversationHistory
  | .askOp prompt out => (ask h prompt out).1
  | .feedback prompt role => add_system_prompt h prompt role

/-- Apply a sequence of conversation operations in order. -/
def runConvOps (h : ConversationHistory) (ops : List ConvOp) : ConversationHistory :=
  ops.foldl applyConvOp h

/-- Decidable test for stating C10: does `args` deserialize to an object
with a string `path` field? -/
def hasStringPathField (v : Json) : Bool :=
  match parse_path_field v with
  | .ok _ => true
  | .error _ => false

/-- A first registration of the name `"t"` (used for concrete last-write
evaluations). -/
def toolA : Tool :=
  ⟨"t", "first", ⟨"t", "first", Json.null⟩, fun _ => .error (.toolError "unimplemented")⟩

/-- A second registration of the name `"t"` with a different description. -/
def toolB : Tool :=
  ⟨"t", "second", ⟨"t", "second", Json.null⟩, fun _ => .ok "ok"⟩

/-- A registered tool whose `exec` always succeeds with a fixed string
(used for concrete runs exercising the tool-output follow-up query). -/
def echoTool : Tool :=
  ⟨"echo_tool", "returns a fixed string", ⟨"echo_tool", "returns a fixed string", Json.null⟩,
    fun _ => .ok "ok!"⟩

/-- A registry holding only `echoTool`. -/
def registryEcho : Registry :=
  (add_tool [] [] echoTool).1

/-- A backend response carrying one function call to `echo_tool`. -/
def rCall : GeminiResponse :=
  ⟨some [⟨⟨[⟨none, some ⟨"echo_tool", Json.null⟩⟩], "model"⟩⟩], none⟩

/-- A backend error envelope whose message is exactly the credential-expiry
text. -/
def rExpired : GeminiResponse :=
  ⟨none, some ⟨400, "API key expired.", "INVALID_ARGUMENT", []⟩⟩

/-- A backend response carrying one text-only part. -/
def rText : GeminiResponse :=
  ⟨some [⟨⟨[⟨some "Hello!", none⟩], "model"⟩⟩], none⟩

/-! ## Helper lemmas -/

theorem isEmpty_map {α β : Type} (f : α → β) (l : List α) :
    (l.map f).isEmpty = l.isEmpty := by
  cases l <;> rfl

theorem foldl_model_feedback (ts : List String) (acc : ConversationHistory) :
    (ts.foldl (fun s t => if t.isEmpty then s else add_system_prompt s t "model") acc).contents
      = acc.contents
        ++ (ts.filter (fun t => !t.isEmpty)).map (fun t => (⟨[Part.ofText t], "model"⟩ : Content)) := by
  induction ts generalizing acc with
  | nil => simp
  | cons t ts ih =>
    simp only [List.foldl_cons, List.filter_cons]
    cases ht : t.isEmpty with
    | true => simp [ht, ih]
    | false =>
      rw [if_neg (by simp [ht])]
      rw [ih]
      simp [ht, add_system_prompt, push_content]

theorem ask_ok_form (h : ConversationHistory) (prompt : String) (r : GeminiResponse)
    (he : r.error = none) (hp : (allParts r).isEmpty = false) :
    ask h prompt (.response r) =
      (⟨h.contents ++ user_content prompt :: model_feedback r⟩,
       .ok ((r.candidates.getD []).map Candidate.content)) := by
  have htexts : (((allParts r).map (fun p => p.text.getD "")).isEmpty) = false := by
    rw [isEmpty_map]; exact hp
  simp only [ask, he]
  rw [show ((((r.candidates.getD []).map Candidate.content).map Content.parts).flatten)
        = allParts r from rfl]
  rw [htexts]
  simp only [Bool.false_eq_true, if_false]
  refine Prod.ext ?_ rfl
  show (⟨_⟩ : ConversationHistory) = _
  rw [ConversationHistory.mk.injEq] at *
  rw [foldl_model_feedback]
  simp [push_content, model_feedback]

theorem lookupTool_insertTool_self (reg : Registry) (k : String) (v : Tool) :
    lookupTool (insertTool reg k v) k = some v := by
  induction reg with
  | nil => simp [insertTool, lookupTool]
  | cons p rest ih =>
    obtain ⟨k', v'⟩ := p
    by_cases hk : k' = k
    · simp [insertTool, hk, lookupTool]
    · simp [insertTool, hk, lookupTool, ih]

theorem filter_key_nil (reg : Registry) (k : String) (hk : k ∉ reg.map Prod.fst) :
    reg.filter (fun p => p.1 == k) = [] := by
  induction reg with
  | nil => rfl
  | cons p rest ih =>
    simp only [List.map_cons, List.mem_cons] at hk
    push_neg at hk
    simp only [List.filter_cons]
    rw [if_neg (by simp [beq_iff_eq]; exact fun e => hk.1 e.symm)]
    exact ih hk.2

theorem count_insertTool (reg : Registry) (k : String) (v : Tool)
    (hnd : (reg.map Prod.fst).Nodup) :
    ((insertTool reg k v).filter (fun p => p.1 == k)).length = 1 := by
  induction reg with
  | nil => simp [insertTool]
  | cons p rest ih =>
    obtain ⟨k', v'⟩ := p
    simp only [List.map_cons, List.nodup_cons] at hnd
    by_cases hk : k' = k
    · subst hk
      have hins : insertTool ((k', v') :: rest) k' v = (k', v) :: rest := by
        simp [insertTool]
      rw [hins, List.filter_cons, if_pos (by simp), filter_key_nil rest k' hnd.1]
      rfl
    · have hins : insertTool ((k', v') :: rest) k v = (k', v') :: insertTool rest k v := by
        simp [insertTool, hk]
      rw [hins, List.filter_cons, if_neg (by simp [hk])]
      exact ih hnd.2

theorem mem_keys_insertTool (reg : Registry) (k : String) (v : Tool) (a : String)
    (ha : a ∈ (insertTool reg k v).map Prod.fst) : a = k ∨ a ∈ reg.map Prod.fst := by
  induction reg with
  | nil => simpa [insertTool] using ha
  | cons p rest ih =>
    obtain ⟨k', v'⟩ := p
    by_cases hk : k' = k
    · simp only [insertTool, if_pos hk, List.map_cons, List.mem_cons] at ha
      rcases ha with ha | ha
      · exact Or.inl ha
      · exact Or.inr (by simp [ha])
    · simp only [insertTool, if_neg hk, List.map_cons, List.mem_cons] at ha
      rcases ha with ha | ha
      · exact Or.inr (by simp [ha])
      · rcases ih ha with h1 | h1
        · exact Or.inl h1
        · exact Or.inr (by simp [h1])

theorem nodup_keys_insertTool (reg : Registry) (k : String) (v : Tool)
    (hnd : (reg.map Prod.fst).Nodup) : ((insertTool reg k v).map Prod.fst).Nodup := by
  induction reg with
  | nil => simp [insertTool]
  | cons p rest ih =>
    obtain ⟨k', v'⟩ := p
    simp only [List.map_cons, List.nodup_cons] at hnd
    by_cases hk : k' = k
    · subst hk
      have hins : insertTool ((k', v') :: rest) k' v = (k', v) :: rest := by
        simp [insertTool]
      rw [hins, List.map_cons, List.nodup_cons]
      exact ⟨hnd.1, hnd.2⟩
    · have hins : insertTool ((k', v') :: rest) k v = (k', v') :: insertTool rest k v := by
        simp [insertTool, hk]
      rw [hins, List.map_cons, List.nodup_cons]
      refine ⟨fun hmem => ?_, ih hnd.2⟩
      rcases mem_keys_insertTool rest k v k' hmem with h1 | h1
      · exact hk h1
      · exact hnd.1 h1

theorem ask_extends (h : ConversationHistory) (prompt : String) (out : BackendOutcome) :
    ∃ tail, (ask h prompt out).1.contents = h.contents ++ user_content prompt :: tail := by
  cases out with
  | transportError m => exact ⟨[], rfl⟩
  | response r =>
    cases he : r.error with
    | some env =>
      by_cases hc : containsSubstr env.message "API key expired." = true
      · exact ⟨[], by simp [ask, he, hc, push_content]⟩
      · rw [Bool.not_eq_true] at hc
        exact ⟨[], by simp [ask, he, hc, push_content]⟩
    | none =>
      cases hp : (allParts r).isEmpty with
      | true =>
        refine ⟨[], ?_⟩
        have htexts : (((allParts r).map (fun p => p.text.getD "")).isEmpty) = true := by
          rw [isEmpty_map]; exact hp
        simp only [ask, he]
        rw [show ((((r.candidates.getD []).map Candidate.content).map Content.parts).flatten)
              = allParts r from rfl]
        rw [htexts]
        simp [push_content]
      | false =>
        refine ⟨model_feedback r, ?_⟩
        rw [ask_ok_form h prompt r he hp]

/-! ## Claim theorems -/

/-- C1 (code_bug evidence): a function call whose name is not registered
does not produce a recoverable `ToolNotFound` condition — the
`agent_tools.lock().await.get(&tool_name).unwrap()` in
`perform_function_call` panics, modelled as `CallsResult.panicked`, so the
error unwinds out of the orchestrator and the process crashes. -/
theorem perform_function_call_unknown_name_panics (reg : Registry) (name : String)
    (args : Json) (h : lookupTool reg name = none) :
    perform_function_call reg [some ⟨name, args⟩] = .panicked := by
  simp [perform_function_call, h]

/-- Witness: with `main`'s registry (`read_file`, `list_files`), a call to
the unregistered name `nonexistent_tool` panics. -/
theorem perform_function_call_unknown_name_panics_witness :
    lookupTool registry0 "nonexistent_tool" = none ∧
    perform_function_call registry0 [some ⟨"nonexistent_tool", Json.obj []⟩] = .panicked :=
  ⟨rfl, perform_function_call_unknown_name_panics registry0 "nonexistent_tool" (Json.obj []) rfl⟩

/-- C2 (code_bug evidence): when `perform_function_call` fails (e.g. a tool
whose `exec` always fails), the inner dispatch `loop` of `main.rs` never
exits: the `continue` after a failure targets the inner `loop`, not the
outer one, so `retry_attempt`/`max_retry` are never consulted and the same
batch is re-dispatched forever — for every fuel bound the loop has not
terminated. -/
theorem dispatch_retry_loop_never_exits (reg : Registry) (calls : List (Option FunctionCall))
    (msg : String) (hfail : perform_function_call reg calls = .failed msg) :
    ∀ fuel h, dispatch_retry_loop reg calls h fuel = none := by
  intro fuel
  induction fuel with
  | zero => intro h; rfl
  | succ n ih =>
    intro h
    simp only [dispatch_retry_loop, hfail]
    exact ih _

/-- Witness: a `read_file` call on a path that never exists fails on every
attempt, and the dispatch loop has made 100 attempts without exiting. -/
theorem dispatch_retry_loop_never_exits_witness :
    dispatch_retry_loop registry0
      [some ⟨"read_file", Json.obj [("path", Json.str "/nonexistent.txt")]⟩] ⟨[]⟩ 100 = none :=
  dispatch_retry_loop_never_exits registry0
    [some ⟨"read_file", Json.obj [("path", Json.str "/nonexistent.txt")]⟩]
    "Error executing tool: File not found: No such file or directory (os error 2)" rfl 100 ⟨[]⟩

/-- C3 (confirmed): for every populated backend error envelope, `ask`
classifies it as the fatal `ExpiredApiKey` exactly when the message contains
the substring `"API key expired."`, and as the recoverable
`AgentError(message)` carrying that message otherwise. -/
theorem ask_classifies_error_envelope (h : ConversationHistory) (prompt : String)
    (r : GeminiResponse) (env : GeminiError) (he : r.error = some env) :
    (ask h prompt (.response r)).2 =
      .error (if containsSubstr env.message "API key expired." then AgentError.expiredApiKey
              else AgentError.agentError (some env.message)) := by
  by_cases hc : containsSubstr env.message "API key expired." = true
  · simp [ask, he, hc]
  · rw [Bool.not_eq_true] at hc
    simp [ask, he, hc]

/-- Witness: a message containing `"API key expired."` is classified as the
fatal `ExpiredApiKey`, and another populated envelope as the recoverable
`AgentError` carrying the message. -/
theorem ask_classifies_error_envelope_witness :
    (ask ⟨[]⟩ "q" (.response ⟨none, some ⟨400, "API key expired. Please renew it.", "INVALID_ARGUMENT", []⟩⟩)).2
      = .error AgentError.expiredApiKey ∧
    (ask ⟨[]⟩ "q" (.response ⟨none, some ⟨429, "Resource has been exhausted", "RESOURCE_EXHAUSTED", []⟩⟩)).2
      = .error (AgentError.agentError (some "Resource has been exhausted")) := by
  constructor
  · rw [ask_classifies_error_envelope ⟨[]⟩ "q" _
      ⟨400, "API key expired. Please renew it.", "INVALID_ARGUMENT", []⟩ rfl]
    rfl
  · rw [ask_classifies_error_envelope ⟨[]⟩ "q" _
      ⟨429, "Resource has been exhausted", "RESOURCE_EXHAUSTED", []⟩ rfl]
    rfl

/-- C7 (confirmed): registering two tools with the same name leaves exactly
one registry entry for that name, lookup returns the second registration
(last-write-wins), and key uniqueness is preserved. -/
theorem add_tool_last_write_wins (reg : Registry) (decls : List ToolDefinition)
    (t1 t2 : Tool) (hname : t1.name = t2.name) (hnd : (reg.map Prod.fst).Nodup) :
    lookupTool (add_tool (add_tool reg decls t1).1 (add_tool reg decls t1).2 t2).1 t2.name
      = some t2 ∧
    ((add_tool (add_tool reg decls t1).1 (add_tool reg decls t1).2 t2).1.filter
      (fun p => p.1 == t2.name)).length = 1 ∧
    ((add_tool (add_tool reg decls t1).1 (add_tool reg decls t1).2 t2).1.map Prod.fst).Nodup := by
  refine ⟨lookupTool_insertTool_self _ _ _, ?_, ?_⟩
  · exact count_insertTool _ _ _ (nodup_keys_insertTool reg t1.name t1 hnd)
  · exact nodup_keys_insertTool _ _ _ (nodup_keys_insertTool reg t1.name t1 hnd)

/-- Witness: registering `toolA` then `toolB` (same name `"t"`, different
descriptions) into an empty agent: lookup returns `toolB`, one entry, keys
unique. -/
theorem add_tool_last_write_wins_witness :
    lookupTool (add_tool (add_tool [] [] toolA).1 (add_tool [] [] toolA).2 toolB).1 toolB.name
      = some toolB ∧
    ((add_tool (add_tool [] [] toolA).1 (add_tool [] [] toolA).2 toolB).1.filter
      (fun p => p.1 == toolB.name)).length = 1 ∧
    ((add_tool (add_tool [] [] toolA).1 (add_tool [] [] toolA).2 toolB).1.map Prod.fst).Nodup :=
  add_tool_last_write_wins [] [] toolA toolB rfl (by simp)

/-- C8 (confirmed): for every sequence of conversation operations, the
history only grows: the original contents are a prefix of the final
contents (so no entry is removed or mutated) and the length is monotonically
non-decreasing. -/
theorem history_append_only (h : ConversationHistory) (ops : List ConvOp) :
    (∃ tail, (runConvOps h ops).contents = h.contents ++ tail) ∧
    h.contents.length ≤ (runConvOps h ops).contents.length := by
  suffices hs : ∃ tail, (runConvOps h ops).contents = h.contents ++ tail by
    obtain ⟨tail, ht⟩ := hs
    exact ⟨⟨tail, ht⟩, by simp [ht]⟩
  induction ops generalizing h with
  | nil => exact ⟨[], by simp [runConvOps]⟩
  | cons op ops ih =>
    have hstep : ∃ tail, (applyConvOp h op).contents = h.contents ++ tail := by
      cases op with
      | askOp prompt out =>
        obtain ⟨tail, ht⟩ := ask_extends h prompt out
        exact ⟨user_content prompt :: tail, ht⟩
      | feedback prompt role => exact ⟨_, rfl⟩
    obtain ⟨t1, ht1⟩ := hstep
    obtain ⟨t2, ht2⟩ := ih (applyConvOp h op)
    refine ⟨t1 ++ t2, ?_⟩
    rw [show runConvOps h (op :: ops) = runConvOps (applyConvOp h op) ops from rfl]
    rw [ht2, ht1, List.append_assoc]

/-- C9 (confirmed): every call to `ask` appends the role-`user` turn wrapping
the prompt as the next history entry, the history grows by at least one
turn, and when `ask` returns an error the appended turn persists (the new
history is exactly the old one plus the user turn — no rollback). -/
theorem ask_user_turn_persists (h : ConversationHistory) (prompt : String)
    (out : BackendOutcome) :
    (∃ tail, (ask h prompt out).1.contents = h.contents ++ user_content prompt :: tail) ∧
    h.contents.length + 1 ≤ (ask h prompt out).1.contents.length ∧
    (∀ e, (ask h prompt out).2 = .error e →
      (ask h prompt out).1.contents = h.contents ++ [user_content prompt]) := by
  obtain ⟨tail, ht⟩ := ask_extends h prompt out
  refine ⟨⟨tail, ht⟩, by simp [ht], ?_⟩
  intro e he
  cases out with
  | transportError m => rfl
  | response r =>
    cases her : r.error with
    | some env =>
      by_cases hc : containsSubstr env.message "API key expired." = true
      · simp [ask, her, hc, push_content]
      · rw [Bool.not_eq_true] at hc
        simp [ask, her, hc, push_content]
    | none =>
      cases hp : (allParts r).isEmpty with
      | true =>
        have htexts : (((allParts r).map (fun p => p.text.getD "")).isEmpty) = true := by
          rw [isEmpty_map]; exact hp
        simp only [ask, her]
        rw [show ((((r.candidates.getD []).map Candidate.content).map Content.parts).flatten)
              = allParts r from rfl]
        rw [htexts]
        simp [push_content]
      | false =>
        rw [ask_ok_form h prompt r her hp] at he
        cases he

/-- Witness for C9: a transport failure still leaves the user turn appended. -/
theorem ask_user_turn_persists_witness :
    (ask ⟨[]⟩ "hello" (.transportError "connection refused")).1.contents
      = (⟨[]⟩ : ConversationHistory).contents ++ [user_content "hello"] :=
  (ask_user_turn_persists ⟨[]⟩ "hello" (.transportError "connection refused")).2.2
    (AgentError.agentError (some "connection refused")) rfl

/-- C10 (confirmed): for every JSON args value that does not deserialize to
an object with a string `path` field, both `ReadFileTool::exec` and
`ListFileTool::exec` return `Err(ToolError)` (no panic in the model — both
are total), and neither touches the filesystem: no file is read and no
directory is listed. -/
theorem tools_reject_invalid_args (fs : String → Option String)
    (dfs : String → Option (List DirEntry)) (args : Json)
    (h : hasStringPathField args = false) :
    (∃ e, read_file_exec fs args = (.error e, [])) ∧
    (∃ e, list_files_exec dfs args = (.error e, [])) := by
  have hp : ∃ msg, parse_path_field args = .error msg := by
    unfold hasStringPathField at h
    cases hpf : parse_path_field args with
    | ok s => rw [hpf] at h; cases h
    | error msg => exact ⟨msg, rfl⟩
  obtain ⟨msg, hmsg⟩ := hp
  constructor
  · exact ⟨.toolError msg, by simp [read_file_exec, hmsg]⟩
  · exact ⟨.toolError ("Invalid input: " ++ msg), by simp [list_files_exec, hmsg]⟩

/-- Witness: a bare string (not an object) is rejected by both tools with no
filesystem access, over an arbitrary concrete filesystem. -/
theorem tools_reject_invalid_args_witness :
    hasStringPathField (Json.str "not an object") = false ∧
    (∃ e, read_file_exec (fun _ => none) (Json.str "not an object") = (.error e, [])) ∧
    (∃ e, list_files_exec (fun _ => none) (Json.str "not an object") = (.error e, [])) :=
  ⟨rfl,
    (tools_reject_invalid_args (fun _ => none) (fun _ => none) (Json.str "not an object") rfl).1,
    (tools_reject_invalid_args (fun _ => none) (fun _ => none) (Json.str "not an object") rfl).2⟩

theorem main_iteration_fresh (reg : Registry) (h : ConversationHistory) (input : String)
    (inputs : List String) (backend : List BackendOutcome) :
    main_iteration reg ⟨false, 0, h⟩ (input :: inputs) backend
      = main_iteration_body reg ⟨false, 0, h⟩ input inputs backend := by
  unfold main_iteration
  simp [max_retry]

theorem main_iteration_body_error (reg : Registry) (st : MState) (input : String)
    (inputs : List String) (b : BackendOutcome) (brest : List BackendOutcome)
    (e : AgentError)
    (hexit : startsWithStr input "exit" = false)
    (hne : e ≠ .expiredApiKey)
    (hask : (ask st.conv input b).2 = .error e) :
    main_iteration_body reg st input inputs (b :: brest)
      = ⟨.next, ⟨true, st.retryAttempt, add_system_prompt_user (ask st.conv input b).1 e.toMessage⟩,
         inputs, brest, [], []⟩ := by
  unfold main_iteration_body
  rw [hexit]
  simp only [Bool.false_eq_true, if_false]
  rw [hask]
  cases e with
  | userInputError m => rfl
  | agentError m => rfl
  | expiredApiKey => exact absurd rfl hne

theorem main_iteration_body_expired (reg : Registry) (st : MState) (input : String)
    (inputs : List String) (b : BackendOutcome) (brest : List BackendOutcome)
    (hexit : startsWithStr input "exit" = false)
    (hask : (ask st.conv input b).2 = .error .expiredApiKey) :
    main_iteration_body reg st input inputs (b :: brest)
      = ⟨.expired, { st with conv := (ask st.conv input b).1 }, inputs, brest, [], []⟩ := by
  unfold main_iteration_body
  rw [hexit]
  simp only [Bool.false_eq_true, if_false]
  rw [hask]

theorem main_iteration_body_ok (reg : Registry) (st : MState) (input : String)
    (inputs : List String) (b : BackendOutcome) (brest : List BackendOutcome)
    (contents : List Content) (ctx : Ctx)
    (hexit : startsWithStr input "exit" = false)
    (hask : (ask st.conv input b).2 = .ok contents)
    (hproc : process_responses reg ⟨(ask st.conv input b).1, brest, [], []⟩ contents = .ok ctx) :
    main_iteration_body reg st input inputs (b :: brest)
      = ⟨.next, ⟨false, st.retryAttempt, ctx.conv⟩, inputs, ctx.backend,
         ctx.printed, ctx.dispatched⟩ := by
  unfold main_iteration_body
  rw [hexit]
  simp only [Bool.false_eq_true, if_false]
  rw [hask]
  simp only [hproc]

theorem print_response_foldl (parts : List Part) (h : ConversationHistory) (acc : List String) :
    parts.foldl
      (fun acc p =>
        match p.text with
        | none => acc
        | some t => (add_system_prompt_user acc.1 t, acc.2 ++ [t]))
      (h, acc)
      = (⟨h.contents ++ user_feedback parts⟩, acc ++ parts.filterMap Part.text) := by
  induction parts generalizing h acc with
  | nil => simp [user_feedback]
  | cons p ps ih =>
    cases hp : p.text with
    | none =>
      simp only [List.foldl_cons, hp]
      rw [ih]
      simp [user_feedback, List.filterMap_cons, hp]
    | some t =>
      simp only [List.foldl_cons, hp]
      rw [ih]
      simp [user_feedback, List.filterMap_cons, hp,
        add_system_prompt_user, add_system_prompt, push_content]

theorem print_response_spec (h : ConversationHistory) (parts : List Part) :
    print_response h parts
      = (⟨h.contents ++ user_feedback parts⟩, parts.filterMap Part.text) := by
  unfold print_response
  rw [print_response_foldl]
  simp

theorem any_isSome_eq_false (parts : List Part)
    (h : parts.all (fun p => p.functionCall.isNone) = true) :
    (parts.map Part.functionCall).any Option.isSome = false := by
  induction parts with
  | nil => rfl
  | cons p ps ih =>
    simp only [List.all_cons, Bool.and_eq_true] at h
    simp only [List.map_cons, List.any_cons, ih h.2, Bool.or_false]
    cases hp : p.functionCall with
    | none => rfl
    | some fc => rw [hp] at h; cases h.1

theorem all_flatten {α : Type} (p : α → Bool) (l : List (List α)) :
    l.flatten.all p = l.all (fun xs => xs.all p) := by
  induction l with
  | nil => rfl
  | cons xs l ih => simp [List.flatten_cons, List.all_append, ih]

theorem user_feedback_append (a b : List Part) :
    user_feedback (a ++ b) = user_feedback a ++ user_feedback b := by
  simp [user_feedback, List.filterMap_append]

theorem process_responses_no_calls (reg : Registry) (contents : List Content) (ctx : Ctx)
    (hnc : contents.all (fun c => c.parts.all (fun p => p.functionCall.isNone)) = true) :
    process_responses reg ctx contents
      = .ok { ctx with
          conv := ⟨ctx.conv.contents ++ user_feedback ((contents.map Content.parts).flatten)⟩,
          printed := ctx.printed ++ ((contents.map Content.parts).flatten).filterMap Part.text } := by
  induction contents generalizing ctx with
  | nil => simp [process_responses, user_feedback]
  | cons c cs ih =>
    simp only [List.all_cons, Bool.and_eq_true] at hnc
    have hany := any_isSome_eq_false c.parts hnc.1
    unfold process_responses
    simp only [hany, Bool.false_eq_true, if_false]
    rw [print_response_spec]
    rw [ih _ hnc.2]
    simp [user_feedback_append, List.filterMap_append, List.append_assoc]

/-- C4 (counterexample): a backend response whose only `Content` has zero
parts does not return the orchestrator to awaiting input without error — at
the concrete input, `ask` raises `AgentError("No response from Gemini")`
(the `texts.is_empty()` check in `gemini.rs`), the iteration produces no
dispatch and no output, and the orchestrator enters the retry path
(`is_retry = true`), not plain awaiting input. -/
theorem zero_parts_response_raises_error :
    (ask ⟨[]⟩ "hi" (.response ⟨some [⟨⟨[], "model"⟩⟩], none⟩)).2
      = .error (AgentError.agentError (some "No response from Gemini")) ∧
    (main_iteration registry0 ⟨false, 0, ⟨[]⟩⟩ ["hi"]
      [.response ⟨some [⟨⟨[], "model"⟩⟩], none⟩]).exit = .next ∧
    (main_iteration registry0 ⟨false, 0, ⟨[]⟩⟩ ["hi"]
      [.response ⟨some [⟨⟨[], "model"⟩⟩], none⟩]).st.isRetry = true ∧
    (main_iteration registry0 ⟨false, 0, ⟨[]⟩⟩ ["hi"]
      [.response ⟨some [⟨⟨[], "model"⟩⟩], none⟩]).printed = [] ∧
    (main_iteration registry0 ⟨false, 0, ⟨[]⟩⟩ ["hi"]
      [.response ⟨some [⟨⟨[], "model"⟩⟩], none⟩]).dispatched = [] :=
  ⟨rfl, rfl, rfl, rfl, rfl⟩

/-- C4 (amended): a backend response whose candidates carry zero parts in
total produces no tool dispatch and no user-visible output, but `ask`
returns the recoverable `AgentError("No response from Gemini")`; the
orchestrator appends the rendered error as feedback and enters the retry
path (`is_retry = true`, so the next pass queries with the synthetic
`"Retry."` prompt) instead of returning directly to awaiting fresh input. -/
theorem zero_parts_response_retries (reg : Registry) (h : ConversationHistory)
    (input : String) (inputs : List String) (r : GeminiResponse)
    (brest : List BackendOutcome)
    (hexit : startsWithStr input "exit" = false)
    (he : r.error = none) (hp : (allParts r).isEmpty = true) :
    ask h input (.response r)
      = (⟨h.contents ++ [user_content input]⟩,
         .error (.agentError (some "No response from Gemini"))) ∧
    main_iteration reg ⟨false, 0, h⟩ (input :: inputs) (.response r :: brest)
      = ⟨.next,
         ⟨true, 0, add_system_prompt_user ⟨h.contents ++ [user_content input]⟩
            (AgentError.toMessage (.agentError (some "No response from Gemini")))⟩,
         inputs, brest, [], []⟩ := by
  have hask : ask h input (.response r)
      = (⟨h.contents ++ [user_content input]⟩,
         .error (.agentError (some "No response from Gemini"))) := by
    have htexts : (((allParts r).map (fun p => p.text.getD "")).isEmpty) = true := by
      rw [isEmpty_map]; exact hp
    simp only [ask, he]
    rw [show ((((r.candidates.getD []).map Candidate.content).map Content.parts).flatten)
          = allParts r from rfl]
    rw [htexts]
    simp [push_content]
  refine ⟨hask, ?_⟩
  rw [main_iteration_fresh]
  rw [main_iteration_body_error reg ⟨false, 0, h⟩ input inputs _ brest
    (.agentError (some "No response from Gemini")) hexit
    (fun hcon => AgentError.noConfusion hcon)
    (by rw [show (⟨false, 0, h⟩ : MState).conv = h from rfl, hask])]
  rw [show (⟨false, 0, h⟩ : MState).conv = h from rfl, hask]

/-- Witness for the amended C4 at a concrete zero-parts response. -/
theorem zero_parts_response_retries_witness :
    ask ⟨[]⟩ "hi" (.response ⟨some [⟨⟨[], "model"⟩⟩], none⟩)
      = (⟨[] ++ [user_content "hi"]⟩,
         .error (.agentError (some "No response from Gemini"))) ∧
    main_iteration registry0 ⟨false, 0, ⟨[]⟩⟩ ("hi" :: [])
      (.response ⟨some [⟨⟨[], "model"⟩⟩], none⟩ :: [])
      = ⟨.next,
         ⟨true, 0, add_system_prompt_user ⟨[] ++ [user_content "hi"]⟩
            (AgentError.toMessage (.agentError (some "No response from Gemini")))⟩,
         [], [], [], []⟩ :=
  zero_parts_response_retries registry0 ⟨[]⟩ "hi" [] ⟨some [⟨⟨[], "model"⟩⟩], none⟩ []
    rfl rfl rfl

/-- C5 (counterexample): when the backend reports the expired-credential
envelope on a tool-output follow-up query (`main.rs` line 120), the generic
`if let Err(e)` handler (line 122) merely logs it and appends feedback —
the process goes on to make a further model query (the third backend
outcome is also consumed) and the session ends via the `exit` command, not
via the expired-credential break. -/
theorem expired_on_tool_query_not_fatal :
    (ask ⟨[]⟩ "x" (.response rExpired)).2 = .error .expiredApiKey ∧
    (main_loop registryEcho 3 ⟨false, 0, ⟨[]⟩⟩ ["hi", "again", "exit"]
      [.response rCall, .response rExpired, .response rText]).exit = .exitCmd ∧
    (main_loop registryEcho 3 ⟨false, 0, ⟨[]⟩⟩ ["hi", "again", "exit"]
      [.response rCall, .response rExpired, .response rText]).backend.length = 0 :=
  ⟨rfl, rfl, rfl⟩

/-- C5 (amended): when the top-level user-prompt query returns the
expired-credential error, the orchestrator terminates immediately: the run
stops with exit `expired`, the remaining user inputs and backend outcomes
are returned untouched (zero further model queries for the remainder of the
process), and only the user turn of the fatal query was appended. -/
theorem main_loop_stops_on_expired (reg : Registry) (fuel : Nat) (h : ConversationHistory)
    (input : String) (inputs : List String) (r : GeminiResponse) (env : GeminiError)
    (brest : List BackendOutcome)
    (hexit : startsWithStr input "exit" = false)
    (he : r.error = some env)
    (hc : containsSubstr env.message "API key expired." = true) :
    main_loop reg (fuel + 1) ⟨false, 0, h⟩ (input :: inputs) (.response r :: brest)
      = ⟨.expired, ⟨false, 0, ⟨h.contents ++ [user_content input]⟩⟩, inputs, brest, [], []⟩ := by
  have hask : ask h input (.response r)
      = (⟨h.contents ++ [user_content input]⟩, .error .expiredApiKey) := by
    simp [ask, he, hc, push_content]
  have hit : main_iteration reg ⟨false, 0, h⟩ (input :: inputs) (.response r :: brest)
      = ⟨.expired, ⟨false, 0, ⟨h.contents ++ [user_content input]⟩⟩, inputs, brest, [], []⟩ := by
    rw [main_iteration_fresh]
    rw [main_iteration_body_expired reg ⟨false, 0, h⟩ input inputs _ brest hexit
      (by rw [show (⟨false, 0, h⟩ : MState).conv = h from rfl, hask])]
    rw [show (⟨false, 0, h⟩ : MState).conv = h from rfl, hask]
  unfold main_loop
  rw [hit]

/-- Witness for the amended C5: a run whose first query hits the expired
envelope stops at once, leaving the rest of the backend unconsumed. -/
theorem main_loop_stops_on_expired_witness :
    main_loop registryEcho (4 + 1) ⟨false, 0, ⟨[]⟩⟩ ("hi" :: ["more"])
      (.response rExpired :: [.response rText])
      = ⟨.expired, ⟨false, 0, ⟨[] ++ [user_content "hi"]⟩⟩, ["more"], [.response rText], [], []⟩ :=
  main_loop_stops_on_expired registryEcho 4 ⟨[]⟩ "hi" ["more"] rExpired
    ⟨400, "API key expired.", "INVALID_ARGUMENT", []⟩ [.response rText] rfl rfl rfl

/-- C6 (confirmed; feedback role `User` modelled from the spec, see
`add_system_prompt_user`): when a model response contains no function call,
the iteration surfaces every text part to the user (in order), appends each
back into the conversation history as a feedback `Content` with role
`user` (after the role-`model` copies `ask` itself appends), performs no
dispatch, and returns to awaiting input (`next` with `is_retry = false`). -/
theorem text_response_surfaced_and_fed_back (reg : Registry) (h : ConversationHistory)
    (input : String) (inputs : List String) (r : GeminiResponse)
    (brest : List BackendOutcome)
    (hexit : startsWithStr input "exit" = false)
    (he : r.error = none)
    (hp : (allParts r).isEmpty = false)
    (hnc : (allParts r).all (fun p => p.functionCall.isNone) = true) :
    main_iteration reg ⟨false, 0, h⟩ (input :: inputs) (.response r :: brest)
      = ⟨.next,
         ⟨false, 0, ⟨h.contents ++ user_content input ::
            (model_feedback r ++ user_feedback (allParts r))⟩⟩,
         inputs, brest, (allParts r).filterMap Part.text, []⟩ := by
  have hask := ask_ok_form h input r he hp
  have hcalls : ((r.candidates.getD []).map Candidate.content).all
      (fun c => c.parts.all (fun p => p.functionCall.isNone)) = true := by
    have hflat := hnc
    unfold allParts at hflat
    rw [all_flatten] at hflat
    simpa [List.all_map, Function.comp] using hflat
  rw [main_iteration_fresh]
  rw [main_iteration_body_ok reg ⟨false, 0, h⟩ input inputs _ brest
    ((r.candidates.getD []).map Candidate.content) _ hexit
    (by rw [show (⟨false, 0, h⟩ : MState).conv = h from rfl, hask])
    (process_responses_no_calls reg _ _ hcalls)]
  rw [show (⟨false, 0, h⟩ : MState).conv = h from rfl, hask]
  rw [show (((((r.candidates.getD []).map Candidate.content)).map Content.parts).flatten)
        = allParts r from rfl]
  simp [List.append_assoc]

/-- Witness for C6 at a concrete single-text response. -/
theorem text_response_surfaced_and_fed_back_witness :
    main_iteration registry0 ⟨false, 0, ⟨[]⟩⟩ ("hi" :: []) (.response rText :: [])
      = ⟨.next,
         ⟨false, 0, ⟨[] ++ user_content "hi" ::
            (model_feedback rText ++ user_feedback (allParts rText))⟩⟩,
         [], [], (allParts rText).filterMap Part.text, []⟩ :=
  text_response_surfaced_and_fed_back registry0 ⟨[]⟩ "hi" [] rText [] rfl rfl rfl rfl

end Voo
